import Mathlib

/-!
Shallow embedding of `src/testit-adapter-cucumber/src/scenario-storage.ts`
(the `Storage` class: an in-memory event store and result correlator for
cucumber test runs), together with theorems about its behaviour.

External collaborator functions (`parseTags`, `mapStatus`, `mapDate`,
`calculateResultOutcome`) are out of scope of the repository and are modelled
as parameters, bundled in the `Collab` structure.  Raw statuses and mapped
outcomes are strings, as in the TypeScript source.  JavaScript `Record`
maps are modelled as functions `String → Option (List _)`; arrays as lists;
thrown exceptions as the `Except` monad with one error constructor per
distinct error message in the source.
-/

/-- A protobuf-style timestamp; the source only reads the `seconds` field. -/
structure Timestamp where
  seconds : Int
deriving Repr, DecidableEq

/-- A parsed gherkin document; stored but never queried by this class. -/
structure GherkinDocument where
  uri : String
deriving Repr, DecidableEq

/-- A raw scenario tag, consumed only by the external `parseTags`. -/
structure PickleTag where
  name : String
deriving Repr, DecidableEq

/-- One step of a pickle: an identifier and the step text. -/
structure PickleStep where
  id : String
  text : String
deriving Repr, DecidableEq

/-- A concrete, tag-resolved scenario instance. -/
structure Pickle where
  id : String
  name : String
  steps : List PickleStep
  tags : List PickleTag
deriving Repr, DecidableEq

/-- One executable unit of a test case, back-referencing its pickle step. -/
structure TestStep where
  id : String
  pickleStepId : String
deriving Repr, DecidableEq

/-- The runner's execution plan for a pickle. -/
structure TestCase where
  id : String
  pickleId : String
  testSteps : List TestStep
deriving Repr, DecidableEq

/-- Lifecycle marker: a test case execution has started. -/
structure TestCaseStarted where
  id : String
  testCaseId : String
  timestamp : Timestamp
deriving Repr, DecidableEq

/-- Lifecycle marker: a test case execution has finished. -/
structure TestCaseFinished where
  testCaseStartedId : String
  timestamp : Timestamp
deriving Repr, DecidableEq

/-- The result carried by a `TestStepFinished` event: a raw status code, a
duration and an optional message. -/
structure TestStepResult where
  duration : Timestamp
  status : String
  message : Option String
deriving Repr, DecidableEq

/-- Lifecycle marker: a test step execution has started. -/
structure TestStepStarted where
  testStepId : String
  timestamp : Timestamp
deriving Repr, DecidableEq

/-- Lifecycle marker: a test step execution has finished. -/
structure TestStepFinished where
  testStepId : String
  timestamp : Timestamp
  testStepResult : TestStepResult
deriving Repr, DecidableEq

/-- A link attributed to a test result (external `testit-js-commons` type). -/
structure Link where
  url : String
deriving Repr, DecidableEq

/-- An attachment reference: the source wraps the identifier in a record. -/
structure Attachment where
  id : String
deriving Repr, DecidableEq

/-- The output of the external `parseTags` collaborator. -/
structure ParsedTags where
  externalId : Option String
  name : Option String
  links : List Link
deriving Repr, DecidableEq

/-- The external collaborator functions consumed by the storage, specified
only at their interface in the spec. -/
structure Collab where
  parseTags : List PickleTag → ParsedTags
  mapStatus : String → String
  mapDate : Int → String
  calculateResultOutcome : List String → String

/-- One step of an assembled test result. -/
structure TestResultStep where
  title : String
  startedOn : String
  duration : Int
  completedOn : String
  outcome : String
deriving Repr, DecidableEq

/-- The assembled result record returned by `getTestResult`. -/
structure TestResult where
  externalId : String
  displayName : String
  links : List Link
  resultLinks : List Link
  stepResults : List TestResultStep
  outcome : String
  startedOn : String
  completedOn : String
  duration : Int
  message : Option String
  traces : String
  attachments : Option (List Attachment)
deriving Repr, DecidableEq, Inhabited

/-- One constructor per distinct `throw new Error(...)` message in the source. -/
inductive StorageError where
  | testCaseNotFound
  | pickleNotFound
  | externalIdNotProvided
  | testCaseStartedNotFound
  | testCaseFinishedNotFound
  | testCaseStepNotFound
  | testStepStartedNotFound
  | testStepFinishedNotFound
deriving Repr, DecidableEq

/-- The private state of the `Storage` class: seven append-only arrays and
three identifier-keyed maps, all initially empty. -/
structure Storage where
  gherkinDocuments : List GherkinDocument := []
  pickles : List Pickle := []
  testCases : List TestCase := []
  testCasesStarted : List TestCaseStarted := []
  testCasesFinished : List TestCaseFinished := []
  testStepsStarted : List TestStepStarted := []
  testStepsFinished : List TestStepFinished := []
  messages : String → Option (List String) := fun _ => none
  resultLinks : String → Option (List Link) := fun _ => none
  attachments : String → Option (List Attachment) := fun _ => none

/-- A storage with every collection empty, as freshly constructed. -/
def emptyStorage : Storage := {}

/-- `isResolvedTestCase`: the for-loop with early `return true` is modelled
by `List.any` over the same per-pickle condition. -/
def Storage.isResolvedTestCase (s : Storage) (c : Collab) (testCase : TestCase) : Bool :=
  s.pickles.any (fun pickle =>
    let tags := c.parseTags pickle.tags
    tags.externalId.isSome && (testCase.pickleId == pickle.id))

/-- `saveGherkinDocument`: push onto the documents array. -/
def Storage.saveGherkinDocument (s : Storage) (document : GherkinDocument) : Storage :=
  { s with gherkinDocuments := s.gherkinDocuments ++ [document] }

/-- `savePickle`: push onto the pickles array. -/
def Storage.savePickle (s : Storage) (pickle : Pickle) : Storage :=
  { s with pickles := s.pickles ++ [pickle] }

/-- `saveTestCase`: push onto the test cases array. -/
def Storage.saveTestCase (s : Storage) (testCase : TestCase) : Storage :=
  { s with testCases := s.testCases ++ [testCase] }

/-- `saveTestCaseStarted`: push onto the started-markers array. -/
def Storage.saveTestCaseStarted (s : Storage) (testCaseStarted : TestCaseStarted) : Storage :=
  { s with testCasesStarted := s.testCasesStarted ++ [testCaseStarted] }

/-- `saveTestCaseFinished`: push onto the finished-markers array. -/
def Storage.saveTestCaseFinished (s : Storage) (testCaseFinished : TestCaseFinished) : Storage :=
  { s with testCasesFinished := s.testCasesFinished ++ [testCaseFinished] }

/-- `saveTestStepStarted`: push onto the step-started array. -/
def Storage.saveTestStepStarted (s : Storage) (testStepStarted : TestStepStarted) : Storage :=
  { s with testStepsStarted := s.testStepsStarted ++ [testStepStarted] }

/-- `saveTestStepFinished`: push onto the step-finished array. -/
def Storage.saveTestStepFinished (s : Storage) (testStepFinished : TestStepFinished) : Storage :=
  { s with testStepsFinished := s.testStepsFinished ++ [testStepFinished] }

/-- `getStepResult`: resolve the test step by pickle-step reference, then its
started/finished markers by test-step identifier. -/
def Storage.getStepResult (s : Storage) (c : Collab) (pickleStep : PickleStep)
    (testCase : TestCase) : Except StorageError TestResultStep :=
  match testCase.testSteps.find? (fun step => step.pickleStepId == pickleStep.id) with
  | none => .error .testCaseStepNotFound
  | some testStep =>
    match s.testStepsStarted.find? (fun step => step.testStepId == testStep.id) with
    | none => .error .testStepStartedNotFound
    | some testStepStarted =>
      match s.testStepsFinished.find? (fun step => step.testStepId == testStepStarted.testStepId) with
      | none => .error .testStepFinishedNotFound
      | some testStepFinished =>
        .ok { title := pickleStep.text
              startedOn := c.mapDate testStepStarted.timestamp.seconds
              duration := testStepFinished.testStepResult.duration.seconds
              completedOn := c.mapDate testStepFinished.timestamp.seconds
              outcome := c.mapStatus testStepFinished.testStepResult.status }

/-- `getStepMessage`: the same lookup chain as `getStepResult`, returning the
optional message of the finished marker. -/
def Storage.getStepMessage (s : Storage) (pickleStep : PickleStep)
    (testCase : TestCase) : Except StorageError (Option String) :=
  match testCase.testSteps.find? (fun step => step.pickleStepId == pickleStep.id) with
  | none => .error .testCaseStepNotFound
  | some testStep =>
    match s.testStepsStarted.find? (fun step => step.testStepId == testStep.id) with
    | none => .error .testStepStartedNotFound
    | some testStepStarted =>
      match s.testStepsFinished.find? (fun step => step.testStepId == testStepStarted.testStepId) with
      | none => .error .testStepFinishedNotFound
      | some testStepFinished =>
        .ok testStepFinished.testStepResult.message

/-- `getAttachments`: return the stored entry, or `none` when absent. -/
def Storage.getAttachments (s : Storage) (testCaseId : String) : Option (List Attachment) :=
  match s.attachments testCaseId with
  | none => none
  | some entry => some entry

/-- The predicate of the `filter` callback on the mapped step-result array in
`getTestResult`: `arr[i - 1]?.outcome` is the outcome of the previous element
of the RAW array (`undefined` at index 0), and a `Skipped` item is dropped
when that previous outcome is `Failed` or `Skipped`. -/
def cascadeKeep (arr : List TestResultStep) (i : Nat) (item : TestResultStep) : Bool :=
  match (if i = 0 then none else arr.get? (i - 1)).map TestResultStep.outcome with
  | none => true
  | some prevOutcome =>
    if item.outcome == "Skipped" && ["Failed", "Skipped"].contains prevOutcome then
      false
    else
      true

/-- The `.filter((item, i, arr) => ...)` call of `getTestResult`: a filter
whose callback also receives the element index and the whole raw array. -/
def cascadeFilter (arr : List TestResultStep) : List TestResultStep :=
  (arr.enum.filter (fun p => cascadeKeep arr p.1 p.2)).map Prod.snd

/-- `getTestResult`: the central correlation algorithm.  The `find` callback
on `testCasesStarted` in the source shadows the outer `testCase` binding, so
its condition compares a candidate's `id` to itself; the embedding keeps that
self-comparison. -/
def Storage.getTestResult (s : Storage) (c : Collab) (testId : String) :
    Except StorageError TestResult :=
  match s.testCases.find? (fun testCase => testCase.id == testId) with
  | none => .error .testCaseNotFound
  | some testCase =>
  match s.pickles.find? (fun pickle => pickle.id == testCase.pickleId) with
  | none => .error .pickleNotFound
  | some pickle =>
  let tags := c.parseTags pickle.tags
  match tags.externalId with
  | none => .error .externalIdNotProvided
  | some externalId =>
  match s.testCasesStarted.find? (fun testCaseS => testCaseS.id == testCaseS.id) with
  | none => .error .testCaseStartedNotFound
  | some testCaseStarted =>
  match s.testCasesFinished.find? (fun testCaseF => testCaseF.testCaseStartedId == testCaseStarted.id) with
  | none => .error .testCaseFinishedNotFound
  | some testCaseFinished =>
  match pickle.steps.mapM (fun step => s.getStepResult c step testCase) with
  | .error e => .error e
  | .ok mappedSteps =>
  let steps := cascadeFilter mappedSteps
  match pickle.steps.mapM (fun step => s.getStepMessage step testCase) with
  | .error e => .error e
  | .ok stepMessages =>
  let messages := stepMessages.filterMap id
  let resultLinks := (s.resultLinks testCase.id).getD []
  .ok { externalId := externalId
        displayName := tags.name.getD pickle.name
        links := tags.links
        resultLinks := resultLinks
        stepResults := steps
        outcome := c.calculateResultOutcome (steps.map (fun step => step.outcome))
        startedOn := c.mapDate testCaseStarted.timestamp.seconds
        completedOn := c.mapDate testCaseFinished.timestamp.seconds
        duration := testCaseFinished.timestamp.seconds - testCaseStarted.timestamp.seconds
        message := (s.messages testCase.id).map (fun entry => String.intercalate "\n\n" entry)
        traces := String.intercalate "\n\n" messages
        attachments := s.getAttachments testCase.id }

/-- `addMessage`: create the entry on first use, otherwise push. -/
def Storage.addMessage (s : Storage) (testCaseId message : String) : Storage :=
  match s.messages testCaseId with
  | none =>
    { s with messages := fun id => if id = testCaseId then some [message] else s.messages id }
  | some entry =>
    { s with messages := fun id => if id = testCaseId then some (entry ++ [message]) else s.messages id }

/-- `addLinks`: create the entry on first use, otherwise push all links. -/
def Storage.addLinks (s : Storage) (testCaseId : String) (links : List Link) : Storage :=
  match s.resultLinks testCaseId with
  | none =>
    { s with resultLinks := fun id => if id = testCaseId then some links else s.resultLinks id }
  | some entry =>
    { s with resultLinks := fun id => if id = testCaseId then some (entry ++ links) else s.resultLinks id }

/-- `addAttachment`: create the entry on first use; otherwise the source calls
`Array.prototype.concat`, which builds a new array and discards it, leaving
the stored entry unchanged. -/
def Storage.addAttachment (s : Storage) (testCaseId attachmentId : String) : Storage :=
  let attachment : Attachment := { id := attachmentId }
  match s.attachments testCaseId with
  | none =>
    { s with attachments := fun id => if id = testCaseId then some [attachment] else s.attachments id }
  | some _ => s

/-! ## The cascading-skip filter: spec-side descriptions

The spec describes the filter in two ways: comparing a Skipped step against
the immediately preceding element of the raw input, and comparing it against
the last element retained after filtering.  Both are rendered below as
left-to-right recursions; `cascadeFilterRaw` threads the raw previous
outcome, `cascadeFilterSpec` threads the outcome of the last retained step. -/

/-- The drop condition shared by both descriptions: the current step is
`Skipped` and the comparison outcome is present and `Failed` or `Skipped`. -/
def dropCond (item : TestResultStep) (prev : Option String) : Bool :=
  item.outcome == "Skipped" && (match prev with
    | none => false
    | some prevOutcome => ["Failed", "Skipped"].contains prevOutcome)

/-- Left-to-right pass threading the outcome of the previous RAW element. -/
def cascadeFilterRaw (prev : Option String) : List TestResultStep → List TestResultStep
  | [] => []
  | item :: rest =>
    if dropCond item prev then
      cascadeFilterRaw (some item.outcome) rest
    else
      item :: cascadeFilterRaw (some item.outcome) rest

/-- Modelled from the spec: a single left-to-right pass in which a Skipped
step is compared against the outcome of the last element RETAINED by the
filter so far; a dropped step does not take part in later comparisons. -/
def cascadeFilterSpec (lastKept : Option String) : List TestResultStep → List TestResultStep
  | [] => []
  | item :: rest =>
    if dropCond item lastKept then
      cascadeFilterSpec lastKept rest
    else
      item :: cascadeFilterSpec (some item.outcome) rest

/-- The outcome of the last element of a list of step results, if any. -/
def lastOutcome : List TestResultStep → Option String
  | [] => none
  | [item] => some item.outcome
  | _ :: rest => lastOutcome rest

lemma lastOutcome_concat (pre : List TestResultStep) (item : TestResultStep) :
    lastOutcome (pre ++ [item]) = some item.outcome := by
  induction pre with
  | nil => rfl
  | cons a pre ih =>
    cases pre with
    | nil => rfl
    | cons b pre => simpa [lastOutcome] using ih

lemma get?_pred_append (pre suffix : List TestResultStep) (h : pre ≠ []) :
    ((pre ++ suffix).get? (pre.length - 1)).map TestResultStep.outcome = lastOutcome pre := by
  induction pre with
  | nil => exact absurd rfl h
  | cons a pre ih =>
    cases pre with
    | nil => rfl
    | cons b pre =>
      have := ih (by simp)
      simpa [lastOutcome, List.length_cons, List.get?] using this

lemma cascadeKeep_eq_dropCond (arr : List TestResultStep) (i : Nat) (item : TestResultStep) :
    cascadeKeep arr i item =
      !(dropCond item ((if i = 0 then none else arr.get? (i - 1)).map TestResultStep.outcome)) := by
  unfold cascadeKeep dropCond
  cases hopt : (if i = 0 then none else arr.get? (i - 1)).map TestResultStep.outcome with
  | none => simp
  | some prevOutcome =>
    by_cases hs : item.outcome == "Skipped" <;>
      by_cases hc : ["Failed", "Skipped"].contains prevOutcome <;>
        simp [hs, hc]

lemma cascadeFilter_enumFrom (rest : List TestResultStep) : ∀ (pre : List TestResultStep),
    ((rest.enumFrom pre.length).filter (fun p => cascadeKeep (pre ++ rest) p.1 p.2)).map Prod.snd
      = cascadeFilterRaw (lastOutcome pre) rest := by
  induction rest with
  | nil => intro pre; rfl
  | cons item rest ih =>
    intro pre
    have hkeep : cascadeKeep (pre ++ item :: rest) pre.length item
        = !(dropCond item (lastOutcome pre)) := by
      rw [cascadeKeep_eq_dropCond]
      cases pre with
      | nil => simp [lastOutcome]
      | cons a pre' =>
        rw [if_neg (by simp)]
        rw [List.get?_append (by simp [Nat.lt_succ_iff])]
        rw [get?_pred_append (a :: pre') [] (by simp) |>.symm]
        simp
    have harr : pre ++ item :: rest = (pre ++ [item]) ++ rest := by simp
    have hlen : pre.length + 1 = (pre ++ [item]).length := by simp
    have ihx := ih (pre ++ [item])
    rw [lastOutcome_concat] at ihx
    rw [List.enumFrom_cons, List.filter_cons]
    by_cases hd : dropCond item (lastOutcome pre)
    · rw [if_neg (by simp [hkeep, hd])]
      rw [cascadeFilterRaw, if_pos hd]
      rw [harr, hlen, ihx]
    · rw [if_pos (by simp [hkeep, hd])]
      rw [cascadeFilterRaw, if_neg hd]
      simp only [List.map_cons]
      rw [harr, hlen, ihx]

lemma cascadeFilter_eq_raw (arr : List TestResultStep) :
    cascadeFilter arr = cascadeFilterRaw none arr := by
  have := cascadeFilter_enumFrom arr []
  simpa [cascadeFilter, lastOutcome, List.enum] using this

lemma raw_eq_spec_aux (l : List TestResultStep) : ∀ (prev lastKept : Option String),
    (prev = lastKept ∨
      (prev = some "Skipped" ∧ (lastKept = some "Failed" ∨ lastKept = some "Skipped"))) →
    cascadeFilterRaw prev l = cascadeFilterSpec lastKept l := by
  induction l with
  | nil => intro prev lastKept _; rfl
  | cons item rest ih =>
    intro prev lastKept hrel
    have hcond : dropCond item prev = dropCond item lastKept := by
      rcases hrel with h | ⟨hp, hl⟩
      · rw [h]
      · rcases hl with hl | hl <;> simp [dropCond, hp, hl]
    rw [cascadeFilterRaw, cascadeFilterSpec, hcond]
    by_cases hd : dropCond item lastKept
    · rw [if_pos hd, if_pos hd]
      apply ih
      right
      have hskip : item.outcome = "Skipped" := by
        have := hd
        unfold dropCond at this
        exact eq_of_beq (Bool.and_elim_left this)
      constructor
      · rw [hskip]
      · unfold dropCond at hd
        have hmatch := Bool.and_elim_right hd
        cases lastKept with
        | none => simp at hmatch
        | some p =>
          simp only [List.contains_cons, List.contains_nil, Bool.or_false] at hmatch
          rcases Bool.or_eq_true_iff.mp hmatch with h | h
          · left
            rw [eq_of_beq h]
          · right
            rw [eq_of_beq h]
    · rw [if_neg hd, if_neg hd]
      congr 1
      exact ih _ _ (Or.inl rfl)

/-- A collaborator whose tag parser always yields the external identifier
`ext1` and no display name, with identity status mapping. -/
def extCollab : Collab :=
  { parseTags := fun _ => { externalId := some "ext1", name := none, links := [] }
    mapStatus := fun status => status
    mapDate := fun seconds => toString seconds
    calculateResultOutcome := fun _ => "Passed" }

/-- A collaborator whose tag parser never yields an external identifier. -/
def noExtCollab : Collab :=
  { parseTags := fun _ => { externalId := none, name := none, links := [] }
    mapStatus := fun status => status
    mapDate := fun seconds => toString seconds
    calculateResultOutcome := fun _ => "Passed" }

/-- Six pickle steps for the cascading-skip example. -/
def c4PickleSteps : List PickleStep :=
  [⟨"ps1", "s1"⟩, ⟨"ps2", "s2"⟩, ⟨"ps3", "s3"⟩, ⟨"ps4", "s4"⟩, ⟨"ps5", "s5"⟩, ⟨"ps6", "s6"⟩]

/-- The matching test steps of the execution plan. -/
def c4TestSteps : List TestStep :=
  [⟨"ts1", "ps1"⟩, ⟨"ts2", "ps2"⟩, ⟨"ts3", "ps3"⟩, ⟨"ts4", "ps4"⟩, ⟨"ts5", "ps5"⟩, ⟨"ts6", "ps6"⟩]

/-- Started markers for the six test steps. -/
def c4StepsStarted : List TestStepStarted :=
  [⟨"ts1", ⟨1⟩⟩, ⟨"ts2", ⟨2⟩⟩, ⟨"ts3", ⟨3⟩⟩, ⟨"ts4", ⟨4⟩⟩, ⟨"ts5", ⟨5⟩⟩, ⟨"ts6", ⟨6⟩⟩]

/-- Finished markers whose statuses map to the ordered outcomes
Passed, Failed, Skipped, Skipped, Passed, Skipped. -/
def c4StepsFinished : List TestStepFinished :=
  [⟨"ts1", ⟨2⟩, ⟨⟨1⟩, "Passed", none⟩⟩,
   ⟨"ts2", ⟨3⟩, ⟨⟨1⟩, "Failed", some "boom"⟩⟩,
   ⟨"ts3", ⟨3⟩, ⟨⟨0⟩, "Skipped", none⟩⟩,
   ⟨"ts4", ⟨3⟩, ⟨⟨0⟩, "Skipped", none⟩⟩,
   ⟨"ts5", ⟨4⟩, ⟨⟨1⟩, "Passed", none⟩⟩,
   ⟨"ts6", ⟨4⟩, ⟨⟨0⟩, "Skipped", none⟩⟩]

/-- The pickle of the six-step scenario. -/
def c4Pickle : Pickle :=
  { id := "p1", name := "Scenario one", steps := c4PickleSteps, tags := [] }

/-- The execution plan of the six-step scenario. -/
def c4Case : TestCase :=
  { id := "tc1", pickleId := "p1", testSteps := c4TestSteps }

/-- A fully ingested store with one scenario of six steps. -/
def c4Store : Storage :=
  { emptyStorage with
    pickles := [c4Pickle]
    testCases := [c4Case]
    testCasesStarted := [{ id := "cs1", testCaseId := "tc1", timestamp := ⟨100⟩ }]
    testCasesFinished := [{ testCaseStartedId := "cs1", timestamp := ⟨130⟩ }]
    testStepsStarted := c4StepsStarted
    testStepsFinished := c4StepsFinished }

/-- C3: the cascading-skip filter of `getTestResult`, which drops a Skipped
step by inspecting the immediately preceding element of the raw input array,
yields the same filtered sequence as a left-to-right pass comparing each
Skipped step against the outcome of the last element retained after
filtering: the raw-window implementation and the spec's filtered-window
description are equivalent on every sequence of step results. -/
theorem cascadeFilter_eq_cascadeFilterSpec (arr : List TestResultStep) :
    cascadeFilter arr = cascadeFilterSpec none arr := by
  rw [cascadeFilter_eq_raw]
  exact raw_eq_spec_aux arr none none (Or.inl rfl)

/-- C4: for a case whose pickle's six steps have the ordered outcomes
Passed, Failed, Skipped, Skipped, Passed, Skipped, the step results retained
by `getTestResult`'s cascading-skip filter have the outcomes Passed, Failed,
Passed, Skipped, in that order. -/
theorem getTestResult_cascade_example :
    (c4Store.getTestResult extCollab "tc1").map (fun r => r.stepResults.map TestResultStep.outcome)
      = .ok ["Passed", "Failed", "Passed", "Skipped"] := rfl

/-- C5: `isResolvedTestCase` returns true exactly when some stored pickle has
an identifier equal to the case's pickle reference and its parsed tags yield
a defined external identifier. -/
theorem isResolvedTestCase_iff_resolved_pickle (s : Storage) (c : Collab) (testCase : TestCase) :
    s.isResolvedTestCase c testCase = true ↔
      ∃ pickle ∈ s.pickles, pickle.id = testCase.pickleId ∧
        ((c.parseTags pickle.tags).externalId).isSome = true := by
  simp only [Storage.isResolvedTestCase, List.any_eq_true, Bool.and_eq_true, beq_iff_eq]
  constructor
  · rintro ⟨p, hp, hsome, hid⟩
    exact ⟨p, hp, hid.symm, hsome⟩
  · rintro ⟨p, hp, hid, hsome⟩
    exact ⟨p, hp, hsome, hid.symm⟩

/-- C6: when the case and its pickle are found but parsing the pickle's tags
yields no external identifier, `getTestResult` fails with the External ID is
not provided error. -/
theorem getTestResult_missing_external_id (s : Storage) (c : Collab) (testId : String)
    (testCase : TestCase) (pickle : Pickle)
    (hc : s.testCases.find? (fun x => x.id == testId) = some testCase)
    (hp : s.pickles.find? (fun x => x.id == testCase.pickleId) = some pickle)
    (hext : (c.parseTags pickle.tags).externalId = none) :
    s.getTestResult c testId = .error .externalIdNotProvided := by
  simp only [Storage.getTestResult, hc, hp, hext]

/-- A store holding one case and its pickle, for exercising the
missing-external-identifier failure. -/
def c6Store : Storage :=
  { emptyStorage with
    pickles := [⟨"p1", "Scenario one", [], []⟩]
    testCases := [⟨"tc1", "p1", []⟩] }

/-- Witness for C6 at a concrete store whose tag parser yields no external
identifier. -/
theorem getTestResult_missing_external_id_witness :
    c6Store.getTestResult noExtCollab "tc1" = .error .externalIdNotProvided :=
  getTestResult_missing_external_id c6Store noExtCollab "tc1"
    ⟨"tc1", "p1", []⟩ ⟨"p1", "Scenario one", [], []⟩ rfl rfl rfl

/-- C9: `getTestResult` on a case identifier matching no stored case fails
with the TestCase not found error, for every store. -/
theorem getTestResult_unknown_case (s : Storage) (c : Collab) (testId : String)
    (h : s.testCases.find? (fun x => x.id == testId) = none) :
    s.getTestResult c testId = .error .testCaseNotFound := by
  simp only [Storage.getTestResult, h]

/-- Witness for C9 on the empty store. -/
theorem getTestResult_unknown_case_witness :
    emptyStorage.getTestResult extCollab "missing" = .error .testCaseNotFound :=
  getTestResult_unknown_case emptyStorage extCollab "missing" rfl

/-- C2 (observed defect): after two `addAttachment` calls on the same case,
`getAttachments` returns only the first attachment reference, because the
second call's `concat` result is discarded. -/
theorem addAttachment_twice_keeps_only_first :
    ((emptyStorage.addAttachment "tc1" "a1").addAttachment "tc1" "a2").getAttachments "tc1"
      = some [{ id := "a1" }] := by decide

/-- First scenario's started marker. -/
def c1Started1 : TestCaseStarted := ⟨"cs1", "tc1", ⟨0⟩⟩

/-- Second scenario's started marker, correctly linked to case `tc2`. -/
def c1Started2 : TestCaseStarted := ⟨"cs2", "tc2", ⟨100⟩⟩

/-- First scenario's finished marker, linked to `cs1`. -/
def c1Finished1 : TestCaseFinished := ⟨"cs1", ⟨10⟩⟩

/-- Second scenario's finished marker, correctly linked to `cs2`. -/
def c1Finished2 : TestCaseFinished := ⟨"cs2", ⟨130⟩⟩

/-- A store holding two step-less scenarios, each with a correctly linked
started/finished pair. -/
def c1Store : Storage :=
  { emptyStorage with
    pickles := [⟨"p1", "one", [], []⟩, ⟨"p2", "two", [], []⟩]
    testCases := [⟨"tc1", "p1", []⟩, ⟨"tc2", "p2", []⟩]
    testCasesStarted := [c1Started1, c1Started2]
    testCasesFinished := [c1Finished1, c1Finished2] }

/-- C1 (code bug): querying the second case returns the duration of the FIRST
stored started/finished pair (10 seconds), not the 30 seconds of the pair
correctly linked to the queried case: the started-marker lookup compares a
candidate's identifier to itself and so always matches the first record. -/
theorem getTestResult_duration_uses_first_started :
    (c1Store.getTestResult extCollab "tc2").map TestResult.duration = .ok 10 ∧
      c1Finished2.timestamp.seconds - c1Started2.timestamp.seconds = 30 := ⟨rfl, rfl⟩

/-! ## Method calls as data, for whole-store properties -/

/-- The public methods of the `Storage` class, reified so that sequences of
calls can be reasoned about. -/
inductive Method where
  | saveGherkinDocument (document : GherkinDocument)
  | savePickle (pickle : Pickle)
  | saveTestCase (testCase : TestCase)
  | saveTestCaseStarted (testCaseStarted : TestCaseStarted)
  | saveTestCaseFinished (testCaseFinished : TestCaseFinished)
  | saveTestStepStarted (testStepStarted : TestStepStarted)
  | saveTestStepFinished (testStepFinished : TestStepFinished)
  | addMessage (testCaseId message : String)
  | addLinks (testCaseId : String) (links : List Link)
  | addAttachment (testCaseId attachmentId : String)
  | isResolvedTestCase (testCase : TestCase)
  | getTestResult (testId : String)
  | getStepResult (pickleStep : PickleStep) (testCase : TestCase)
  | getStepMessage (pickleStep : PickleStep) (testCase : TestCase)
  | getAttachments (testCaseId : String)

/-- The value returned by a method call. -/
inductive MethodOutput where
  | unit
  | bool (b : Bool)
  | result (r : Except StorageError TestResult)
  | step (r : Except StorageError TestResultStep)
  | stepMessage (r : Except StorageError (Option String))
  | attachmentList (r : Option (List Attachment))

/-- Execute one method call: the store after the call, paired with the call's
output.  The bodies of the five query methods contain no assignment to any
field of the store, so their branches return the store unchanged. -/
def exec (s : Storage) (c : Collab) : Method → Storage × MethodOutput
  | .saveGherkinDocument document => (s.saveGherkinDocument document, .unit)
  | .savePickle pickle => (s.savePickle pickle, .unit)
  | .saveTestCase testCase => (s.saveTestCase testCase, .unit)
  | .saveTestCaseStarted t => (s.saveTestCaseStarted t, .unit)
  | .saveTestCaseFinished t => (s.saveTestCaseFinished t, .unit)
  | .saveTestStepStarted t => (s.saveTestStepStarted t, .unit)
  | .saveTestStepFinished t => (s.saveTestStepFinished t, .unit)
  | .addMessage testCaseId message => (s.addMessage testCaseId message, .unit)
  | .addLinks testCaseId links => (s.addLinks testCaseId links, .unit)
  | .addAttachment testCaseId attachmentId => (s.addAttachment testCaseId attachmentId, .unit)
  | .isResolvedTestCase testCase => (s, .bool (s.isResolvedTestCase c testCase))
  | .getTestResult testId => (s, .result (s.getTestResult c testId))
  | .getStepResult pickleStep testCase => (s, .step (s.getStepResult c pickleStep testCase))
  | .getStepMessage pickleStep testCase => (s, .stepMessage (s.getStepMessage pickleStep testCase))
  | .getAttachments testCaseId => (s, .attachmentList (s.getAttachments testCaseId))

/-- Execute a sequence of method calls, discarding the outputs. -/
def execList (s : Storage) (c : Collab) : List Method → Storage
  | [] => s
  | m :: ms => execList (exec s c m).1 c ms

/-- The five methods that only read the store. -/
def Method.isQuery : Method → Bool
  | .isResolvedTestCase _ => true
  | .getTestResult _ => true
  | .getStepResult _ _ => true
  | .getStepMessage _ _ => true
  | .getAttachments _ => true
  | _ => false

/-- An accumulator-map entry only grows: a present entry stays present and
its later value is the earlier sequence with some suffix appended, so the
earlier sequence is a prefix of the later one and nothing was deleted. -/
def entryGrows {α : Type} (before after : Option (List α)) : Prop :=
  ∀ xs, before = some xs → ∃ ys, after = some (xs ++ ys)

lemma entryGrows_refl {α : Type} (v : Option (List α)) : entryGrows v v := by
  intro xs hx
  exact ⟨[], by simp [hx]⟩

lemma entryGrows_trans {α : Type} {a b c : Option (List α)}
    (hab : entryGrows a b) (hbc : entryGrows b c) : entryGrows a c := by
  intro xs hx
  obtain ⟨ys, hb⟩ := hab xs hx
  obtain ⟨zs, hc⟩ := hbc (xs ++ ys) hb
  exact ⟨ys ++ zs, by simp [hc]⟩

lemma addMessage_messages_grow (s : Storage) (tcid msg caseId : String) :
    entryGrows (s.messages caseId) ((s.addMessage tcid msg).messages caseId) := by
  intro xs hx
  unfold Storage.addMessage
  cases h : s.messages tcid with
  | none =>
    by_cases hc : caseId = tcid
    · rw [hc, h] at hx
      exact absurd hx (by simp)
    · exact ⟨[], by simp [if_neg hc, hx]⟩
  | some entry =>
    by_cases hc : caseId = tcid
    · subst hc
      rw [h] at hx
      have hex : entry = xs := Option.some.inj hx
      subst hex
      exact ⟨[msg], by simp⟩
    · exact ⟨[], by simp [if_neg hc, hx]⟩

lemma addMessage_resultLinks_eq (s : Storage) (tcid msg : String) :
    (s.addMessage tcid msg).resultLinks = s.resultLinks := by
  unfold Storage.addMessage
  cases h : s.messages tcid <;> rfl

lemma addMessage_attachments_eq (s : Storage) (tcid msg : String) :
    (s.addMessage tcid msg).attachments = s.attachments := by
  unfold Storage.addMessage
  cases h : s.messages tcid <;> rfl

lemma addLinks_resultLinks_grow (s : Storage) (tcid : String) (links : List Link)
    (caseId : String) :
    entryGrows (s.resultLinks caseId) ((s.addLinks tcid links).resultLinks caseId) := by
  intro xs hx
  unfold Storage.addLinks
  cases h : s.resultLinks tcid with
  | none =>
    by_cases hc : caseId = tcid
    · rw [hc, h] at hx
      exact absurd hx (by simp)
    · exact ⟨[], by simp [if_neg hc, hx]⟩
  | some entry =>
    by_cases hc : caseId = tcid
    · subst hc
      rw [h] at hx
      have hex : entry = xs := Option.some.inj hx
      subst hex
      exact ⟨links, by simp⟩
    · exact ⟨[], by simp [if_neg hc, hx]⟩

lemma addLinks_messages_eq (s : Storage) (tcid : String) (links : List Link) :
    (s.addLinks tcid links).messages = s.messages := by
  unfold Storage.addLinks
  cases h : s.resultLinks tcid <;> rfl

lemma addLinks_attachments_eq (s : Storage) (tcid : String) (links : List Link) :
    (s.addLinks tcid links).attachments = s.attachments := by
  unfold Storage.addLinks
  cases h : s.resultLinks tcid <;> rfl

lemma addAttachment_attachments_grow (s : Storage) (tcid aid caseId : String) :
    entryGrows (s.attachments caseId) ((s.addAttachment tcid aid).attachments caseId) := by
  intro xs hx
  unfold Storage.addAttachment
  cases h : s.attachments tcid with
  | none =>
    by_cases hc : caseId = tcid
    · rw [hc, h] at hx
      exact absurd hx (by simp)
    · exact ⟨[], by simp [if_neg hc, hx]⟩
  | some entry =>
    exact ⟨[], by simp [hx]⟩

lemma addAttachment_messages_eq (s : Storage) (tcid aid : String) :
    (s.addAttachment tcid aid).messages = s.messages := by
  unfold Storage.addAttachment
  cases h : s.attachments tcid <;> rfl

lemma addAttachment_resultLinks_eq (s : Storage) (tcid aid : String) :
    (s.addAttachment tcid aid).resultLinks = s.resultLinks := by
  unfold Storage.addAttachment
  cases h : s.attachments tcid <;> rfl

lemma exec_entryGrows (s : Storage) (c : Collab) (m : Method) (caseId : String) :
    entryGrows (s.messages caseId) (((exec s c m).1).messages caseId) ∧
    entryGrows (s.resultLinks caseId) (((exec s c m).1).resultLinks caseId) ∧
    entryGrows (s.attachments caseId) (((exec s c m).1).attachments caseId) := by
  cases m with
  | addMessage tcid msg =>
    refine ⟨addMessage_messages_grow s tcid msg caseId, ?_, ?_⟩
    · show entryGrows (s.resultLinks caseId) ((s.addMessage tcid msg).resultLinks caseId)
      rw [addMessage_resultLinks_eq]
      exact entryGrows_refl _
    · show entryGrows (s.attachments caseId) ((s.addMessage tcid msg).attachments caseId)
      rw [addMessage_attachments_eq]
      exact entryGrows_refl _
  | addLinks tcid links =>
    refine ⟨?_, addLinks_resultLinks_grow s tcid links caseId, ?_⟩
    · show entryGrows (s.messages caseId) ((s.addLinks tcid links).messages caseId)
      rw [addLinks_messages_eq]
      exact entryGrows_refl _
    · show entryGrows (s.attachments caseId) ((s.addLinks tcid links).attachments caseId)
      rw [addLinks_attachments_eq]
      exact entryGrows_refl _
  | addAttachment tcid aid =>
    refine ⟨?_, ?_, addAttachment_attachments_grow s tcid aid caseId⟩
    · show entryGrows (s.messages caseId) ((s.addAttachment tcid aid).messages caseId)
      rw [addAttachment_messages_eq]
      exact entryGrows_refl _
    · show entryGrows (s.resultLinks caseId) ((s.addAttachment tcid aid).resultLinks caseId)
      rw [addAttachment_resultLinks_eq]
      exact entryGrows_refl _
  | _ => exact ⟨entryGrows_refl _, entryGrows_refl _, entryGrows_refl _⟩

/-- C8: over every sequence of store operations and for every case
identifier, the messages, result-links and attachments entries only grow:
the sequence stored under a case identifier before the operations is a
prefix of the sequence stored under it afterwards, and no operation deletes
an entry or an element. -/
theorem execList_accumulators_append_only (s : Storage) (c : Collab) (ms : List Method)
    (caseId : String) :
    entryGrows (s.messages caseId) ((execList s c ms).messages caseId) ∧
    entryGrows (s.resultLinks caseId) ((execList s c ms).resultLinks caseId) ∧
    entryGrows (s.attachments caseId) ((execList s c ms).attachments caseId) := by
  induction ms generalizing s with
  | nil => exact ⟨entryGrows_refl _, entryGrows_refl _, entryGrows_refl _⟩
  | cons m ms ih =>
    have h1 := exec_entryGrows s c m caseId
    have h2 := ih (exec s c m).1
    exact ⟨entryGrows_trans h1.1 h2.1, entryGrows_trans h1.2.1 h2.2.1,
      entryGrows_trans h1.2.2 h2.2.2⟩

/-- A store holding one accumulated message, for exercising growth. -/
def c8Start : Storage := emptyStorage.addMessage "tc1" "a"

/-- A sample operation sequence mixing accumulator calls and a query. -/
def c8Ops : List Method :=
  [Method.addMessage "tc1" "b", Method.addAttachment "tc1" "x", Method.getTestResult "tc1"]

/-- Witness for C8 on a concrete store and operation sequence. -/
theorem execList_accumulators_append_only_witness :
    entryGrows (c8Start.messages "tc1") ((execList c8Start extCollab c8Ops).messages "tc1") ∧
    entryGrows (c8Start.resultLinks "tc1") ((execList c8Start extCollab c8Ops).resultLinks "tc1") ∧
    entryGrows (c8Start.attachments "tc1") ((execList c8Start extCollab c8Ops).attachments "tc1") :=
  execList_accumulators_append_only c8Start extCollab c8Ops "tc1"

/-- C10: the query methods (`isResolvedTestCase`, `getTestResult`,
`getStepResult`, `getStepMessage`, `getAttachments`) leave every stored
collection of the store unchanged, whether they return normally or fail. -/
theorem exec_query_leaves_store_unchanged (s : Storage) (c : Collab) (m : Method)
    (h : m.isQuery = true) : (exec s c m).1 = s := by
  cases m <;> simp_all [Method.isQuery, exec]

/-- Witness for C10: running `getTestResult` on a populated store leaves it
unchanged. -/
theorem exec_query_leaves_store_unchanged_witness :
    (exec c4Store extCollab (Method.getTestResult "tc1")).1 = c4Store :=
  exec_query_leaves_store_unchanged c4Store extCollab (Method.getTestResult "tc1") rfl

/-- C7: when `getTestResult` succeeds on a case whose pickle was found, the
result's display name is the tag-supplied name when the parsed tags provide
one, overriding the pickle's own name, and the pickle's raw name otherwise. -/
theorem getTestResult_displayName (s : Storage) (c : Collab) (testId : String)
    (testCase : TestCase) (pickle : Pickle) (r : TestResult)
    (hc : s.testCases.find? (fun x => x.id == testId) = some testCase)
    (hp : s.pickles.find? (fun x => x.id == testCase.pickleId) = some pickle)
    (hok : s.getTestResult c testId = .ok r) :
    (∀ n, (c.parseTags pickle.tags).name = some n → r.displayName = n) ∧
      ((c.parseTags pickle.tags).name = none → r.displayName = pickle.name) := by
  simp only [Storage.getTestResult, hc, hp] at hok
  split at hok
  · simp at hok
  · split at hok
    · simp at hok
    · split at hok
      · simp at hok
      · split at hok
        · simp at hok
        · split at hok
          · simp at hok
          · rw [Except.ok.injEq] at hok
            subst hok
            constructor
            · intro n hn
              simp [hn]
            · intro hn
              simp [hn]

/-- A collaborator whose tag parser supplies both an external identifier and
the display name X. -/
def namedCollab : Collab :=
  { parseTags := fun _ => { externalId := some "ext1", name := some "X", links := [] }
    mapStatus := fun status => status
    mapDate := fun seconds => toString seconds
    calculateResultOutcome := fun _ => "Passed" }

/-- The result assembled for the six-step scenario under `namedCollab`. -/
def c7Result : TestResult :=
  (c4Store.getTestResult namedCollab "tc1").toOption.getD default

/-- Witness for C7 on the six-step scenario store with a tag-supplied name. -/
theorem getTestResult_displayName_witness :
    (∀ n, (namedCollab.parseTags c4Pickle.tags).name = some n → c7Result.displayName = n) ∧
      ((namedCollab.parseTags c4Pickle.tags).name = none → c7Result.displayName = c4Pickle.name) :=
  getTestResult_displayName c4Store namedCollab "tc1" c4Case c4Pickle c7Result rfl rfl rfl
